import Mathlib

/-!
Verification of the provisioning pipeline stage, the generated `QueryNext`
model class, and the plug-and-play sample helpers of the
`azure-iot-sdk-python` repository, as a shallow embedding in Lean 4.

Sources embedded:
* `azure-iot-device/azure/iot/device/provisioning/pipeline/pipeline_stages_provisioning.py`
  (`UseSecurityClientStage._run_op`);
* `azure-iot-provisioning/azure/iot/provisioning/protocol/models/query_next_py3.py`
  (`QueryNext.__init__`);
* `samples/pnp/pnp_helper.py` (`create_response_payload_with_status`,
  `create_reported_properties_from_desired`).

The operation-flow helpers (`delegate_to_different_op`,
`pass_op_to_next_stage`) and the completion-callback discipline live in
`azure.iot.device.common.pipeline`, which is part of the repository but not
among the given source files; these are modelled from the specification, as
flagged in their doc comments.
-/

namespace AzureIoT

/-- Errors carried by operation completions; opaque to the pipeline core,
so modelled as plain strings. -/
abbrev PError := String

/-- Credential source for the shared-key path: the fields of
`SymmetricKeySecurityClient` that `UseSecurityClientStage._run_op` reads. -/
structure SymmetricKeySecurityClient where
  provisioning_host : String
  registration_id : String
  id_scope : String
  sas_token : String
deriving DecidableEq, Repr

/-- The `get_current_sas_token` accessor of the shared-key security client;
an external collaborator contract, it returns the client's current token. -/
def SymmetricKeySecurityClient.get_current_sas_token
    (sc : SymmetricKeySecurityClient) : String :=
  sc.sas_token

/-- Credential source for the certificate path: the fields of
`X509SecurityClient` that `UseSecurityClientStage._run_op` reads. -/
structure X509SecurityClient where
  provisioning_host : String
  registration_id : String
  id_scope : String
  x509_cert : String
deriving DecidableEq, Repr

/-- The `get_x509_certificate` accessor of the certificate security client;
an external collaborator contract, it returns the certificate material. -/
def X509SecurityClient.get_x509_certificate (sc : X509SecurityClient) : String :=
  sc.x509_cert

/-- Operations flowing through the provisioning pipeline: the two credential
operations handled by `UseSecurityClientStage`, the protocol-specific
`SetProvisioningClientConnectionArgsOperation` it synthesizes (whose
`sas_token` and `client_cert` keyword arguments default to absent), and a
catch-all for every other operation kind, which the stage passes down. -/
inductive Op where
  | setSymmetricKeySecurityClient (security_client : SymmetricKeySecurityClient)
  | setX509SecurityClient (security_client : X509SecurityClient)
  | setProvisioningClientConnectionArgs
      (provisioning_host : String) (registration_id : String) (id_scope : String)
      (sas_token : Option String) (client_cert : Option String)
  | other (kind : String) (payload : String)
deriving DecidableEq, Repr

/-- Modelled from the spec: the downstream remainder of the stage chain. The
spec's completion discipline (§4.1, §4.3) says the next stage completes each
operation submitted to it exactly once, with success (`none`) or an error;
`outcome` records which, per operation. -/
structure NextStage where
  outcome : Op → Option PError

/-- Observable effect of running one operation through the stage:
the operations it submitted to the next stage, in order, and the
completions delivered to the original operation's callback, in order. -/
structure StageResult where
  submitted_to_next : List Op
  completions : List (Option PError)
deriving DecidableEq, Repr

/-- Fatal pipeline-configuration failure (spec §4.2, §7 taxonomy (b)). -/
inductive PipelineError where
  | pipelineMisconfigured
deriving DecidableEq, Repr

/-- Modelled from the spec: `operation_flow.pass_op_to_next_stage` forwards
the operation verbatim to `stage.next.run(operation)` and fails fatally when
`stage.next` is absent (§4.3). The forwarded operation is then completed
exactly once by the downstream chain, which fires the operation's own
callback with the downstream outcome. -/
def pass_op_to_next_stage (next : Option NextStage) (op : Op) :
    Except PipelineError StageResult :=
  match next with
  | none => Except.error PipelineError.pipelineMisconfigured
  | some n => Except.ok { submitted_to_next := [op], completions := [n.outcome op] }

/-- Modelled from the spec: `operation_flow.delegate_to_different_op` wires
`new_op`'s completion callback to complete `original_op` with `new_op`'s
error (success when the error is absent), then submits `new_op` to the next
stage (§4.3). The original operation's callback therefore fires exactly
once, with the downstream outcome of the synthesized operation; failing
fatally when the next stage is absent, like every forward. -/
def delegate_to_different_op (next : Option NextStage) (original_op new_op : Op) :
    Except PipelineError StageResult :=
  match next with
  | none => Except.error PipelineError.pipelineMisconfigured
  | some n => Except.ok { submitted_to_next := [new_op], completions := [n.outcome new_op] }

/-- Embedding of `UseSecurityClientStage._run_op`: on a
`SetSymmetricKeySecurityClientOperation` it delegates to a synthesized
`SetProvisioningClientConnectionArgsOperation` carrying host, registration
id, scope and the current SAS token; on a `SetX509SecurityClientOperation`
it delegates to one carrying host, registration id, scope and the
certificate; every other operation is passed to the next stage. -/
def UseSecurityClientStage.run_op (next : Option NextStage) (op : Op) :
    Except PipelineError StageResult :=
  match op with
  | Op.setSymmetricKeySecurityClient security_client =>
      delegate_to_different_op next op
        (Op.setProvisioningClientConnectionArgs
          security_client.provisioning_host
          security_client.registration_id
          security_client.id_scope
          (some security_client.get_current_sas_token)
          none)
  | Op.setX509SecurityClient security_client =>
      delegate_to_different_op next op
        (Op.setProvisioningClientConnectionArgs
          security_client.provisioning_host
          security_client.registration_id
          security_client.id_scope
          none
          (some security_client.get_x509_certificate))
  | _ => pass_op_to_next_stage next op

/-- The operation `UseSecurityClientStage._run_op` synthesizes for a
credential operation, if the operation is one of the two credential kinds. -/
def credential_synthesized : Op → Option Op
  | Op.setSymmetricKeySecurityClient sc =>
      some (Op.setProvisioningClientConnectionArgs
        sc.provisioning_host sc.registration_id sc.id_scope (some sc.sas_token) none)
  | Op.setX509SecurityClient sc =>
      some (Op.setProvisioningClientConnectionArgs
        sc.provisioning_host sc.registration_id sc.id_scope none (some sc.x509_cert))
  | _ => none

/-- Whether `UseSecurityClientStage` recognizes (and transforms) the
operation kind, rather than passing it down unchanged. -/
def recognized_by_stage : Op → Bool
  | Op.setSymmetricKeySecurityClient _ => true
  | Op.setX509SecurityClient _ => true
  | _ => false

/-- C1: every operation run through `UseSecurityClientStage` with a next
stage present is completed exactly once — one callback invocation —
whether the stage delegated it to a synthesized operation or passed it
through; and for the delegated credential operations the single completion
carries the synthesized operation's downstream outcome. -/
theorem use_security_client_completes_exactly_once (op : Op) (n : NextStage) :
    ∃ r, UseSecurityClientStage.run_op (some n) op = Except.ok r ∧
      r.completions.length = 1 ∧
      (∀ new_op, credential_synthesized op = some new_op →
        r.completions = [n.outcome new_op]) := by
  cases op <;>
    simp [UseSecurityClientStage.run_op, delegate_to_different_op,
      pass_op_to_next_stage, credential_synthesized,
      SymmetricKeySecurityClient.get_current_sas_token,
      X509SecurityClient.get_x509_certificate]

/-- Witness for C1: a concrete shared-key credential operation run against a
next stage that succeeds is completed exactly once, with that outcome. -/
theorem use_security_client_completes_exactly_once_witness :
    ∃ r, UseSecurityClientStage.run_op
        (some { outcome := fun _ => none })
        (Op.setSymmetricKeySecurityClient
          { provisioning_host := "host", registration_id := "id",
            id_scope := "scope", sas_token := "token" }) = Except.ok r ∧
      r.completions.length = 1 ∧
      (∀ new_op, credential_synthesized
          (Op.setSymmetricKeySecurityClient
            { provisioning_host := "host", registration_id := "id",
              id_scope := "scope", sas_token := "token" }) = some new_op →
        r.completions = [(fun (_ : Op) => (none : Option PError)) new_op]) :=
  use_security_client_completes_exactly_once
    (Op.setSymmetricKeySecurityClient
      { provisioning_host := "host", registration_id := "id",
        id_scope := "scope", sas_token := "token" })
    { outcome := fun _ => none }

/-- C2: a shared-key credential operation whose security client carries
host H, registration id I, scope S and current token T is delegated to
exactly one synthesized `SetProvisioningClientConnectionArgsOperation`
carrying exactly (H, I, S, T); and when the next stage completes that
operation successfully, the original is completed exactly once with no
error. -/
theorem use_security_client_symmetric_key (sc : SymmetricKeySecurityClient)
    (n : NextStage)
    (hsucc : n.outcome (Op.setProvisioningClientConnectionArgs
      sc.provisioning_host sc.registration_id sc.id_scope
      (some sc.sas_token) none) = none) :
    UseSecurityClientStage.run_op (some n) (Op.setSymmetricKeySecurityClient sc) =
      Except.ok
        { submitted_to_next := [Op.setProvisioningClientConnectionArgs
            sc.provisioning_host sc.registration_id sc.id_scope
            (some sc.sas_token) none],
          completions := [none] } := by
  simp [UseSecurityClientStage.run_op, delegate_to_different_op,
    SymmetricKeySecurityClient.get_current_sas_token, hsucc]

/-- Witness for C2 at a concrete security client and an always-succeeding
next stage. -/
theorem use_security_client_symmetric_key_witness :
    UseSecurityClientStage.run_op
        (some { outcome := fun _ => none })
        (Op.setSymmetricKeySecurityClient
          { provisioning_host := "h", registration_id := "i",
            id_scope := "s", sas_token := "t" }) =
      Except.ok
        { submitted_to_next := [Op.setProvisioningClientConnectionArgs
            "h" "i" "s" (some "t") none],
          completions := [none] } :=
  use_security_client_symmetric_key
    { provisioning_host := "h", registration_id := "i",
      id_scope := "s", sas_token := "t" }
    { outcome := fun _ => none }
    rfl

/-- C3: a certificate credential operation whose security client carries
host H, registration id I, scope S and certificate C is delegated to
exactly one synthesized `SetProvisioningClientConnectionArgsOperation`
carrying exactly (H, I, S, C); and when the next stage completes that
operation successfully, the original is completed exactly once with no
error. -/
theorem use_security_client_x509 (sc : X509SecurityClient) (n : NextStage)
    (hsucc : n.outcome (Op.setProvisioningClientConnectionArgs
      sc.provisioning_host sc.registration_id sc.id_scope
      none (some sc.x509_cert)) = none) :
    UseSecurityClientStage.run_op (some n) (Op.setX509SecurityClient sc) =
      Except.ok
        { submitted_to_next := [Op.setProvisioningClientConnectionArgs
            sc.provisioning_host sc.registration_id sc.id_scope
            none (some sc.x509_cert)],
          completions := [none] } := by
  simp [UseSecurityClientStage.run_op, delegate_to_different_op,
    X509SecurityClient.get_x509_certificate, hsucc]

/-- Witness for C3 at a concrete security client and an always-succeeding
next stage. -/
theorem use_security_client_x509_witness :
    UseSecurityClientStage.run_op
        (some { outcome := fun _ => none })
        (Op.setX509SecurityClient
          { provisioning_host := "h", registration_id := "i",
            id_scope := "s", x509_cert := "c" }) =
      Except.ok
        { submitted_to_next := [Op.setProvisioningClientConnectionArgs
            "h" "i" "s" none (some "c")],
          completions := [none] } :=
  use_security_client_x509
    { provisioning_host := "h", registration_id := "i",
      id_scope := "s", x509_cert := "c" }
    { outcome := fun _ => none }
    rfl

/-- C4: when the synthesized connection-arguments operation of a delegated
credential operation completes with an error E, the original credential
operation is completed with that same E, and the stage issued no operation
beyond the single synthesized one. -/
theorem use_security_client_delegation_error (op new_op : Op) (n : NextStage)
    (e : PError)
    (hsyn : credential_synthesized op = some new_op)
    (herr : n.outcome new_op = some e) :
    UseSecurityClientStage.run_op (some n) op =
      Except.ok { submitted_to_next := [new_op], completions := [some e] } := by
  cases op <;> simp [credential_synthesized] at hsyn <;>
    subst hsyn <;>
    simp [UseSecurityClientStage.run_op, delegate_to_different_op,
      SymmetricKeySecurityClient.get_current_sas_token,
      X509SecurityClient.get_x509_certificate, herr]

/-- Witness for C4: a concrete shared-key credential operation against a
next stage that always fails with a concrete error. -/
theorem use_security_client_delegation_error_witness :
    UseSecurityClientStage.run_op
        (some { outcome := fun _ => some "boom" })
        (Op.setSymmetricKeySecurityClient
          { provisioning_host := "h", registration_id := "i",
            id_scope := "s", sas_token := "t" }) =
      Except.ok
        { submitted_to_next := [Op.setProvisioningClientConnectionArgs
            "h" "i" "s" (some "t") none],
          completions := [some "boom"] } :=
  use_security_client_delegation_error
    (Op.setSymmetricKeySecurityClient
      { provisioning_host := "h", registration_id := "i",
        id_scope := "s", sas_token := "t" })
    (Op.setProvisioningClientConnectionArgs "h" "i" "s" (some "t") none)
    { outcome := fun _ => some "boom" }
    "boom"
    rfl
    rfl

/-- C5: an operation of a kind the stage does not recognize is passed to the
next stage as the very same operation value, every field unmodified. -/
theorem use_security_client_pass_through (op : Op) (n : NextStage)
    (hunrec : recognized_by_stage op = false) :
    UseSecurityClientStage.run_op (some n) op =
      Except.ok { submitted_to_next := [op], completions := [n.outcome op] } := by
  cases op <;> simp [recognized_by_stage] at hunrec <;>
    simp [UseSecurityClientStage.run_op, pass_op_to_next_stage]

/-- Witness for C5 at a concrete unrecognized operation. -/
theorem use_security_client_pass_through_witness :
    UseSecurityClientStage.run_op
        (some { outcome := fun _ => none })
        (Op.other "RegisterOperation" "payload") =
      Except.ok
        { submitted_to_next := [Op.other "RegisterOperation" "payload"],
          completions := [none] } :=
  use_security_client_pass_through
    (Op.other "RegisterOperation" "payload")
    { outcome := fun _ => none }
    rfl

/-- C6: whatever operation the stage would forward (a pass-through of an
unrecognized kind or a synthesized delegated operation), when no next stage
is present the run fails with the fatal pipeline-misconfiguration error
rather than silently dropping the operation. -/
theorem use_security_client_no_next_stage_fatal (op : Op) :
    UseSecurityClientStage.run_op none op =
      Except.error PipelineError.pipelineMisconfigured := by
  cases op <;>
    rfl

/-- The generated `QueryNext` model object: its two instance attributes
after `__init__` runs. -/
structure QueryNext where
  continuation_token : Option String
  query_type : String
deriving DecidableEq, Repr

/-- The `_validation` table of `QueryNext`: `query_type` is marked required.
This table is consulted by the msrest serializer, not by the constructor. -/
def QueryNext.validation_required : List (String × Bool) :=
  [("query_type", true)]

/-- Embedding of `QueryNext.__init__`: the only keyword parameter is
`continuation_token` (defaulting to absent); `query_type` is not a
parameter at all — the constructor unconditionally fills it with the
constant string, and no validation runs at construction time, so
construction is total. -/
def QueryNext.init (continuation_token : Option String) : QueryNext :=
  { continuation_token := continuation_token, query_type := "QueryNext" }

/-- C8 counterexample: constructing a `QueryNext` with the required
`query_type` field omitted (it cannot even be supplied) does not fail —
construction succeeds and the constructor itself populates `query_type`
with the constant. -/
theorem queryNext_missing_field_construction_succeeds :
    QueryNext.init none =
      { continuation_token := none, query_type := "QueryNext" } :=
  rfl

/-- C8 amended: constructing a `QueryNext` never fails over `query_type`:
the constructor takes no `query_type` parameter and unconditionally
populates the field with the constant, so the field marked required in the
validation table is always present after construction; the required-ness is
enforced only later, at serialization time. -/
theorem queryNext_init_populates_query_type (ct : Option String) :
    (QueryNext.init ct).query_type = "QueryNext" ∧
      QueryNext.validation_required = [("query_type", true)] :=
  ⟨rfl, rfl⟩

/-- A command request as consumed by `create_response_payload_with_status`:
only its `payload` attribute is read. -/
structure CommandRequest where
  payload : String
deriving DecidableEq, Repr

/-- Values a method-response payload can take: the default
`{"result": ..., "data": ...}` dictionary, or whatever a user-supplied
response function returned. -/
inductive RespPayload where
  | resultData (result : Bool) (data : String)
  | userValue (v : String)
deriving DecidableEq, Repr

/-- Embedding of `pnp_helper.create_response_payload_with_status`. Python
truthiness of the `method_name` string is nonemptiness; `if not
create_user_response` is absence of the optional function. The status is
computed from `method_name` alone; the payload is the default dictionary
when no user response function is given, and otherwise the user function
applied to the command request's payload. -/
def create_response_payload_with_status (command_request : CommandRequest)
    (method_name : String)
    (create_user_response : Option (String → RespPayload)) :
    Nat × RespPayload :=
  let response_status := if method_name ≠ "" then 200 else 404
  let response_payload :=
    match create_user_response with
    | none =>
        RespPayload.resultData
          (if method_name ≠ "" then true else false)
          (if method_name ≠ "" then "executed " ++ method_name
           else "unknown method")
    | some f => f command_request.payload
  (response_status, response_payload)

/-- C9: with no user response function, the helper returns exactly
`(200, {result: true, data: "executed " ++ method_name})` for a truthy
(nonempty) method name and exactly
`(404, {result: false, data: "unknown method"})` for a falsy one; and the
status is 200 exactly when the method name is truthy, whatever user
response function is supplied. -/
theorem create_response_payload_with_status_spec
    (command_request : CommandRequest) (method_name : String)
    (create_user_response : Option (String → RespPayload)) :
    (create_response_payload_with_status command_request method_name none =
      if method_name ≠ "" then
        (200, RespPayload.resultData true ("executed " ++ method_name))
      else
        (404, RespPayload.resultData false "unknown method")) ∧
    ((create_response_payload_with_status command_request method_name
        create_user_response).1 = 200 ↔ method_name ≠ "") := by
  constructor
  · by_cases h : method_name = "" <;>
      simp [create_response_payload_with_status, h]
  · by_cases h : method_name = "" <;>
      simp [create_response_payload_with_status, h]

/-- Scalar JSON-ish values carried in a desired-properties patch. -/
inductive PVal where
  | str (s : String)
  | num (n : Int)
deriving DecidableEq, Repr

/-- Top-level values of a desired-properties patch: a scalar (no `items`
attribute) or a component dictionary of property name/value pairs, in
insertion order like a Python dict. -/
inductive TopVal where
  | scalar (v : PVal)
  | dict (entries : List (String × PVal))
deriving DecidableEq, Repr

/-- Values held by the component dictionary after the loop of
`create_reported_properties_from_desired` ran: either the original desired
value (never touched) or a reference to the one shared `inner_dict` object
— the loop allocates a single dictionary before iterating and assigns that
same object to every non-ignored property name. -/
inductive RVal where
  | orig (v : PVal)
  | innerRef
deriving DecidableEq, Repr

/-- The `ignore_keys` list of `create_reported_properties_from_desired`. -/
def ignore_keys : List String := ["__t", "$version"]

/-- Python `d[key]` on an association list in insertion order (keys of a
Python dict are unique, so first match is the binding). -/
def getVal {α : Type} : List (String × α) → String → Option α
  | [], _ => none
  | (k, v) :: rest, key => if k = key then some v else getVal rest key

/-- Python `d[key] = v` on an association list: overwrite in place keeping
the key's insertion position, append when absent. -/
def setKey {α : Type} : List (String × α) → String → α → List (String × α)
  | [], k, v => [(k, v)]
  | (k0, v0) :: rest, k, v =>
    if k0 = k then (k, v) :: rest else (k0, v0) :: setKey rest k v

/-- Contents of the shared `inner_dict` after a loop iteration for a
non-ignored property: the loop assigns exactly the keys `ac`, `ad`, `av`,
`value` every iteration, so each iteration overwrites the whole dictionary
with these four bindings (insertion order fixed by the first iteration and
preserved by overwriting). -/
def mkInner (version : TopVal) (prop_value : PVal) : List (String × TopVal) :=
  [("ac", TopVal.scalar (PVal.num 200)),
   ("ad", TopVal.scalar (PVal.str "Successfully executed patch")),
   ("av", version),
   ("value", TopVal.scalar prop_value)]

/-- The `for prop_name, prop_value in values.items()` loop of
`create_reported_properties_from_desired`: iteration is over the original
pairs (only already-visited keys are reassigned, so each pair is read with
its original value); ignored keys are skipped; a non-ignored iteration
overwrites the shared `inner_dict` and rebinds the current key to a
reference to that shared dictionary. Returns the final `inner_dict` and
the mutated `values`. -/
def desiredLoop (version : TopVal) :
    List (String × PVal) → List (String × TopVal) → List (String × RVal) →
    List (String × TopVal) × List (String × RVal)
  | [], inner_dict, values => (inner_dict, values)
  | (prop_name, prop_value) :: rest, inner_dict, values =>
    if prop_name ∈ ignore_keys then
      desiredLoop version rest inner_dict values
    else
      desiredLoop version rest (mkInner version prop_value)
        (setKey values prop_name RVal.innerRef)

/-- What `create_reported_properties_from_desired` places under the
component key: the (possibly mutated) component dictionary together with
the shared `inner_dict` its references point to, or the untouched scalar
when the component value had no `items` attribute. -/
inductive ReportedValues where
  | scalar (v : TopVal)
  | mutated (values : List (String × RVal)) (inner_dict : List (String × TopVal))
deriving DecidableEq, Repr

/-- Result of `create_reported_properties_from_desired`: `comp_key` is the
first patch key when truthy (the result is `{comp_key: values}`) and absent
when falsy (the result is `values` itself). -/
structure ReportedResult where
  comp_key : Option String
  values : ReportedValues
deriving DecidableEq, Repr

/-- Embedding of `pnp_helper.create_reported_properties_from_desired`:
take the first patch key as component key (`IndexError`, hence `none`, on
an empty patch), look up its value and `patch["$version"]` (`KeyError`,
hence `none`, when absent), run the rebinding loop when the component value
is a dictionary, and wrap under the component key when it is truthy. -/
def create_reported_properties_from_desired (patch : List (String × TopVal)) :
    Option ReportedResult :=
  match patch.head? with
  | none => none
  | some (k0, _) =>
    match getVal patch k0, getVal patch "$version" with
    | some vals, some version =>
      let res :=
        match vals with
        | TopVal.dict entries =>
          let pair := desiredLoop version entries []
            (entries.map (fun kv => (kv.1, RVal.orig kv.2)))
          ReportedValues.mutated pair.2 pair.1
        | v => ReportedValues.scalar v
      some { comp_key := if k0 = "" then none else some k0, values := res }
    | _, _ => none

/-- Lookup of a property in the mutated component dictionary of a
`create_reported_properties_from_desired` result. -/
def mutatedLookup (r : Option ReportedResult) (k : String) : Option RVal :=
  match r with
  | some rr =>
    match rr.values with
    | ReportedValues.mutated values _ => getVal values k
    | _ => none
  | none => none

/-- Lookup of a key in the shared `inner_dict` of a
`create_reported_properties_from_desired` result. -/
def innerLookup (r : Option ReportedResult) (k : String) : Option TopVal :=
  match r with
  | some rr =>
    match rr.values with
    | ReportedValues.mutated _ inner_dict => getVal inner_dict k
    | _ => none
  | none => none

/-- Property names of the component dictionary outside `ignore_keys`, in
iteration order. -/
def nonIgnoredKeys : List (String × PVal) → List String
  | [] => []
  | (k, _) :: rest =>
    if k ∈ ignore_keys then nonIgnoredKeys rest else k :: nonIgnoredKeys rest

/-- The last property pair the loop iterates without skipping. -/
def lastNonIgnored : List (String × PVal) → Option (String × PVal)
  | [] => none
  | (k, v) :: rest =>
    if k ∈ ignore_keys then lastNonIgnored rest
    else
      match lastNonIgnored rest with
      | none => some (k, v)
      | some kv => some kv

theorem getVal_setKey_self {α : Type} (l : List (String × α)) (k : String)
    (v : α) : getVal (setKey l k v) k = some v := by
  induction l with
  | nil => simp [setKey, getVal]
  | cons hd tl ih =>
    obtain ⟨k0, v0⟩ := hd
    by_cases h : k0 = k <;> simp [setKey, getVal, h, ih]

theorem getVal_setKey_other {α : Type} (l : List (String × α)) (k k2 : String)
    (v : α) (hne : k ≠ k2) : getVal (setKey l k v) k2 = getVal l k2 := by
  induction l with
  | nil => simp [setKey, getVal, hne]
  | cons hd tl ih =>
    obtain ⟨k0, v0⟩ := hd
    by_cases h : k0 = k
    · subst h
      simp [setKey, getVal, hne]
    · by_cases h2 : k0 = k2 <;> simp [setKey, getVal, h, h2, Ne.symm hne, ih]

theorem nonIgnoredKeys_subset (entries : List (String × PVal)) (k : String)
    (hk : k ∈ nonIgnoredKeys entries) : k ∈ entries.map Prod.fst := by
  induction entries with
  | nil => simp [nonIgnoredKeys] at hk
  | cons hd tl ih =>
    obtain ⟨k0, v0⟩ := hd
    by_cases h : k0 ∈ ignore_keys
    · simp [nonIgnoredKeys, h] at hk
      simp [ih hk]
    · simp [nonIgnoredKeys, h] at hk
      rcases hk with hk | hk
      · simp [hk]
      · simp [ih hk]

/-- After the loop runs over entries with pairwise-distinct keys, a
property name is bound to the shared `inner_dict` reference exactly when it
is a non-ignored key of the entries, and keeps its previous binding
otherwise. -/
theorem desiredLoop_values_lookup (version : TopVal) :
    ∀ (entries : List (String × PVal)) (inner_dict : List (String × TopVal))
      (values : List (String × RVal)) (k : String),
      (entries.map Prod.fst).Nodup →
      getVal (desiredLoop version entries inner_dict values).2 k =
        if k ∈ nonIgnoredKeys entries then some RVal.innerRef
        else getVal values k := by
  intro entries
  induction entries with
  | nil =>
    intro inner_dict values k _
    simp [desiredLoop, nonIgnoredKeys]
  | cons hd tl ih =>
    intro inner_dict values k hnd
    obtain ⟨k0, v0⟩ := hd
    rw [List.map_cons, List.nodup_cons] at hnd
    obtain ⟨hk0, hnd'⟩ := hnd
    by_cases hig : k0 ∈ ignore_keys
    · simp [desiredLoop, hig, nonIgnoredKeys, ih _ _ k hnd']
    · rw [show desiredLoop version ((k0, v0) :: tl) inner_dict values =
          desiredLoop version tl (mkInner version v0)
            (setKey values k0 RVal.innerRef) by simp [desiredLoop, hig]]
      rw [ih _ _ k hnd']
      by_cases hmem : k ∈ nonIgnoredKeys tl
      · simp [nonIgnoredKeys, hig, hmem]
      · by_cases hkk0 : k = k0
        · subst hkk0
          simp [nonIgnoredKeys, hig, hmem, getVal_setKey_self]
        · simp [nonIgnoredKeys, hig, hmem, hkk0,
            getVal_setKey_other values k0 k RVal.innerRef (Ne.symm hkk0)]

/-- After the loop, the shared `inner_dict` holds the four fixed bindings
with `value` taken from the last non-ignored property iterated, and is
untouched when every property was ignored. -/
theorem desiredLoop_inner (version : TopVal) :
    ∀ (entries : List (String × PVal)) (inner_dict : List (String × TopVal))
      (values : List (String × RVal)),
      (desiredLoop version entries inner_dict values).1 =
        match lastNonIgnored entries with
        | none => inner_dict
        | some kv => mkInner version kv.2 := by
  intro entries
  induction entries with
  | nil =>
    intro inner_dict values
    simp [desiredLoop, lastNonIgnored]
  | cons hd tl ih =>
    intro inner_dict values
    obtain ⟨k0, v0⟩ := hd
    by_cases hig : k0 ∈ ignore_keys
    · simp [desiredLoop, hig, lastNonIgnored, ih]
    · rw [show desiredLoop version ((k0, v0) :: tl) inner_dict values =
          desiredLoop version tl (mkInner version v0)
            (setKey values k0 RVal.innerRef) by simp [desiredLoop, hig]]
      rw [ih]
      rw [show lastNonIgnored ((k0, v0) :: tl) =
          match lastNonIgnored tl with
          | none => some (k0, v0)
          | some kv => some kv by simp [lastNonIgnored, hig]]
      cases h : lastNonIgnored tl <;> simp

/-- C10: on a patch whose first entry is a component dictionary containing
at least two property names outside `ignore_keys` (keys pairwise distinct,
`$version` present in the patch), every such property name ends up bound to
a reference to the one shared `inner_dict`, whose `value` field holds the
value of the last property iterated — so all these properties report that
same value rather than their own desired values. -/
theorem desired_patch_shared_inner_dict (patch : List (String × TopVal))
    (c : String) (entries : List (String × PVal)) (ver : TopVal)
    (kl : String) (vl : PVal)
    (hhead : patch.head? = some (c, TopVal.dict entries))
    (hver : getVal patch "$version" = some ver)
    (hnodup : (entries.map Prod.fst).Nodup)
    (hcount : 2 ≤ (nonIgnoredKeys entries).length)
    (hlast : lastNonIgnored entries = some (kl, vl)) :
    (∀ k, k ∈ nonIgnoredKeys entries →
      mutatedLookup (create_reported_properties_from_desired patch) k =
        some RVal.innerRef) ∧
    innerLookup (create_reported_properties_from_desired patch) "value" =
      some (TopVal.scalar vl) := by
  cases patch with
  | nil => simp at hhead
  | cons hd rest =>
    have hd_eq : hd = (c, TopVal.dict entries) := by
      simpa using hhead
    subst hd_eq
    rw [show create_reported_properties_from_desired
        ((c, TopVal.dict entries) :: rest) =
        match getVal ((c, TopVal.dict entries) :: rest) c,
              getVal ((c, TopVal.dict entries) :: rest) "$version" with
        | some vals, some version =>
          let res :=
            match vals with
            | TopVal.dict es =>
              let pair := desiredLoop version es []
                (es.map (fun kv => (kv.1, RVal.orig kv.2)))
              ReportedValues.mutated pair.2 pair.1
            | v => ReportedValues.scalar v
          some { comp_key := if c = "" then none else some c, values := res }
        | _, _ => none from rfl]
    rw [show getVal ((c, TopVal.dict entries) :: rest) c =
        some (TopVal.dict entries) by simp [getVal]]
    rw [hver]
    constructor
    · intro k hk
      simp only [mutatedLookup]
      rw [desiredLoop_values_lookup ver entries []
        (entries.map (fun kv => (kv.1, RVal.orig kv.2))) k hnodup]
      simp [hk]
    · simp only [innerLookup]
      rw [desiredLoop_inner ver entries []
        (entries.map (fun kv => (kv.1, RVal.orig kv.2)))]
      rw [hlast]
      simp [mkInner, getVal]

/-- Concrete two-property desired patch for the C10 witness. -/
def patchW : List (String × TopVal) :=
  [("thermostat", TopVal.dict
      [("targetTemperature", PVal.num 21), ("fanSpeed", PVal.num 3)]),
   ("$version", TopVal.scalar (PVal.num 4))]

/-- Witness for C10: on the concrete two-property patch, both property
names are bound to the shared `inner_dict` reference and its `value` field
is the second (last-iterated) property's value. -/
theorem desired_patch_shared_inner_dict_witness :
    mutatedLookup (create_reported_properties_from_desired patchW)
        "targetTemperature" = some RVal.innerRef ∧
    mutatedLookup (create_reported_properties_from_desired patchW)
        "fanSpeed" = some RVal.innerRef ∧
    innerLookup (create_reported_properties_from_desired patchW) "value" =
      some (TopVal.scalar (PVal.num 3)) :=
  ⟨(desired_patch_shared_inner_dict patchW "thermostat"
      [("targetTemperature", PVal.num 21), ("fanSpeed", PVal.num 3)]
      (TopVal.scalar (PVal.num 4)) "fanSpeed" (PVal.num 3)
      rfl rfl (by decide) (by decide) rfl).1 "targetTemperature" (by decide),
   (desired_patch_shared_inner_dict patchW "thermostat"
      [("targetTemperature", PVal.num 21), ("fanSpeed", PVal.num 3)]
      (TopVal.scalar (PVal.num 4)) "fanSpeed" (PVal.num 3)
      rfl rfl (by decide) (by decide) rfl).1 "fanSpeed" (by decide),
   (desired_patch_shared_inner_dict patchW "thermostat"
      [("targetTemperature", PVal.num 21), ("fanSpeed", PVal.num 3)]
      (TopVal.scalar (PVal.num 4)) "fanSpeed" (PVal.num 3)
      rfl rfl (by decide) (by decide) rfl).2⟩

end AzureIoT
